import Mathlib

/-!
Verification of the Flowise Telegram routing bot (`src/main.py`).

The Python source is shallowly embedded: Python strings are `List Char`
(wrapped in `String` at the interface), `time.time()` is a `Nat` clock,
the asyncio timer tasks are modelled by an explicit timer-generation id
stored in the session, and the two Flowise backends are oracles supplied
as parameters (the HTTP layer is an external collaborator).
-/

namespace FlowiseBot

/-! ## Python string primitives -/

/-- Python `str.strip()` whitespace test, on the ASCII range
(space, tab, newline, carriage return, vertical tab, form feed). -/
def pySpace (c : Char) : Bool :=
  c = ' ' || c = '\t' || c = '\n' || c = '\r' || c = '\x0b' || c = '\x0c'

/-- Drop leading whitespace (the front half of Python `str.strip()`). -/
def stripFront (l : List Char) : List Char := l.dropWhile pySpace

/-- Python `str.strip()` on a character list: drop leading and trailing
whitespace. -/
def pyStrip (l : List Char) : List Char :=
  ((stripFront l).reverse.dropWhile pySpace).reverse

/-- Python `s.replace(c, '')`: remove every occurrence of the character. -/
def removeChar (l : List Char) (c : Char) : List Char :=
  l.filter (fun x => x ≠ c)

/-- Python `s.split('\n')`: split into lines at each newline.
`[] ↦ [[]]`, matching `"".split('\n') == ['']`. -/
def splitNl : List Char → List (List Char)
  | [] => [[]]
  | c :: cs =>
    if c = '\n' then [] :: splitNl cs
    else
      match splitNl cs with
      | [] => [[c]]
      | p :: ps => (c :: p) :: ps

/-- Python `'\n'.join(pieces)`. -/
def joinNl : List (List Char) → List Char
  | [] => []
  | [l] => l
  | l :: ls => l ++ '\n' :: joinNl ls

/-- Python `needle in hay` substring test on character lists. -/
def containsSub (hay needle : List Char) : Bool :=
  match hay with
  | [] => needle.isEmpty
  | c :: cs => needle.isPrefixOf (c :: cs) || containsSub cs needle

/-! ## `clean_response` (src/main.py lines 79-82) -/

/-- Character-list body of `clean_response`:
`text.replace('#','').replace('*','')`, then
`'\n'.join(line.strip() for line in cleaned.split('\n'))`, then `.strip()`. -/
def clean_list (l : List Char) : List Char :=
  let cleaned := removeChar (removeChar l '#') '*'
  let cleaned := joinNl ((splitNl cleaned).map pyStrip)
  pyStrip cleaned

/-- The function `clean_response` from src/main.py, lines 79-82. -/
def clean_response (text : String) : String :=
  ⟨clean_list text.data⟩

/-! ## Backend Client: `FlowiseBot.get_response` (src/main.py lines 26-64)

The HTTP POST of one attempt either raises `requests.RequestException`
(`failure`) or yields a JSON object whose optional `text` field is
modelled as `Option String` (`success`). The whole sequence of attempt
outcomes is an oracle `Nat → AttemptResult`. -/

inductive AttemptResult where
  | failure
  | success (text : Option String)
deriving DecidableEq

def max_retries : Nat := 5

def base_delay : Nat := 1

/-- The backoff delay (in seconds) computed before retrying after the
failure of `attempt` (0-based): `(2 ** attempt) * base_delay`, plus a
`random.uniform(0, 1)` jitter that is modelled as an arbitrary value
below 1 and therefore dropped from the integer part. -/
def retry_delay (attempt : Nat) : Nat := 2 ^ attempt * base_delay

/-- The retry loop of `get_response` starting at a given attempt index.
Returns the text result together with the number of attempts consumed.
The final `return "Maximum retries reached. ..."` after the loop is kept
(it is reached only when the loop body never returns). -/
def get_response_from (oracle : Nat → AttemptResult) (attempt : Nat) :
    String × Nat :=
  if _h : attempt < max_retries then
    match oracle attempt with
    | .success t => (t.getD "No response text in Flowise API response", attempt + 1)
    | .failure =>
      if attempt = max_retries - 1 then
        ("Error occurred while contacting Flowise API.", attempt + 1)
      else
        get_response_from oracle (attempt + 1)
  else
    ("Maximum retries reached. Unable to contact Flowise API.", attempt)
termination_by max_retries - attempt

/-- The call `FlowiseBot.get_response`: up to `max_retries` attempts, returning the
success payload's `text` field (or the missing-text sentinel), or the
fixed failure sentinel once the last attempt fails. -/
def get_response (oracle : Nat → AttemptResult) : String × Nat :=
  get_response_from oracle 0

/-! ## Session store (src/main.py lines 22, 66-77)

The `bot1`/`bot2` `FlowiseBot` handles hold only static configuration
(URL, token) and are external collaborators, so they are not part of the
session state; the backends they reach are the `response1`/`bot2_response`
oracles of the handler below. `asyncio` task handles are modelled by a
timer-generation id (`Nat`); cancellation of a task is recorded in a
system-level `cancelled` list, because `wait_task.cancel()` does not
clear the `wait_task` field. -/

structure UserSession where
  waiting : Bool
  last_wait_time : Nat
  message_queue : List String
  wait_task : Option Nat
  session_id : String
deriving DecidableEq

/-- The fresh per-user state installed by `get_user_bots` on first
contact (src/main.py lines 67-76): `session_id` is `str(user_id)`. -/
def init_session (user_id : Nat) : UserSession :=
  { waiting := false
    last_wait_time := 0
    message_queue := []
    wait_task := none
    session_id := toString user_id }

/-- The lookup `get_user_bots`: find the user in `user_data`, lazily creating the
session. Returns the updated store and the session used. -/
def get_user_bots (user_data : Nat → Option UserSession) (user_id : Nat) :
    (Nat → Option UserSession) × UserSession :=
  match user_data user_id with
  | some s => (user_data, s)
  | none =>
    (fun u => if u = user_id then some (init_session user_id) else user_data u,
     init_session user_id)

/-- System state for one user: the session dict entry, the ids of timer
tasks whose `cancel()` has been called, and the fresh-id counter for
`asyncio.create_task`. -/
structure SysState where
  session : UserSession
  cancelled : List Nat
  next_tid : Nat
deriving DecidableEq

inductive BotId where
  | bot1
  | bot2
deriving DecidableEq

/-- Observable actions of one handler/timer invocation, in program order:
backend calls (with the question and `sessionId` passed), timer
cancellation/creation, and Telegram `send_message`. -/
inductive Event where
  | call (bot : BotId) (question : String) (user_id : Nat) (session_id : String)
  | cancelTimer (tid : Nat)
  | armTimer (tid : Nat)
  | send (chat_id : Nat) (text : String)
deriving DecidableEq

/-! ## Flush: `process_bot2_messages` (src/main.py lines 132-148) -/

/-- The flush `process_bot2_messages`: drain the queue, join with single spaces,
call `bot2`, and deliver the cleaned response unless it is falsy
(the empty string). `bot2_response` stands for the text returned by
`bot2.get_response` on the combined question. -/
def process_bot2_messages (user_id chat_id : Nat) (bot2_response : String)
    (st : SysState) : SysState × List Event :=
  let session_id := st.session.session_id
  let messages := st.session.message_queue
  let st := { st with session := { st.session with message_queue := [] } }
  let combined_question := String.intercalate " " messages
  let callEv := Event.call .bot2 combined_question user_id session_id
  if bot2_response = "" then
    (st, [callEv])
  else
    (st, [callEv, Event.send chat_id (clean_response bot2_response)])

/-! ## Router: `handle_telegram_message` (src/main.py lines 84-121) -/

def escalate_marker : String := "Спецзапрос"

def clarify_marker : String := "Уточнение"

def wait_marker : String := "Ожидание"

/-- The cancelled-task list after the `if user_bots['wait_task']:
user_bots['wait_task'].cancel()` step. -/
def cancel_list (armed : Option Nat) (cancelled : List Nat) : List Nat :=
  match armed with
  | some a => a :: cancelled
  | none => cancelled

/-- The cancellation events emitted by that step. -/
def cancel_events (armed : Option Nat) : List Event :=
  match armed with
  | some a => [Event.cancelTimer a]
  | none => []

/-- The `if user_bots['wait_task']: user_bots['wait_task'].cancel()`
step: record the cancellation of the armed task, if any. The
`wait_task` field itself is not cleared (faithful to the source). -/
def cancel_wait_task (st : SysState) : SysState × List Event :=
  match st.session.wait_task with
  | some tid => ({ st with cancelled := tid :: st.cancelled }, [Event.cancelTimer tid])
  | none => (st, [])

/-- The router `handle_telegram_message` for one inbound text. `response1` stands
for the classification text returned by `bot1.get_response(text, ...)`,
`bot2_response` for the text `bot2` returns if a flush happens in this
invocation, and `now` for `time.time()`. Branches, in source order:
`"Спецзапрос" in response1` (escalate), `response1.strip() == "Уточнение"`
(clarify), `response1 == "Ожидание"` (wait), else direct reply. -/
def handle_telegram_message (user_id chat_id : Nat) (text : String)
    (response1 bot2_response : String) (now : Nat) (st : SysState) :
    SysState × List Event :=
  let call1 := Event.call .bot1 text user_id st.session.session_id
  if containsSub response1.data escalate_marker.data then
    let (st, evs) := cancel_wait_task st
    let st := { st with session :=
      { st.session with message_queue := st.session.message_queue ++ [text] } }
    let (st, evs2) := process_bot2_messages user_id chat_id bot2_response st
    (st, call1 :: evs ++ evs2)
  else if pyStrip response1.data = clarify_marker.data then
    let (st, evs) := cancel_wait_task st
    let st := { st with session :=
      { st.session with message_queue :=
          st.session.message_queue ++ [text ++ " " ++ clarify_marker] } }
    let (st, evs2) := process_bot2_messages user_id chat_id bot2_response st
    (st, call1 :: evs ++ evs2)
  else if response1 = wait_marker then
    let st := { st with session := { st.session with waiting := true } }
    let st := { st with session := { st.session with last_wait_time := now } }
    let st := { st with session :=
      { st.session with message_queue := st.session.message_queue ++ [text] } }
    let (st, evs) := cancel_wait_task st
    let tid := st.next_tid
    let st := { st with
      session := { st.session with wait_task := some tid }
      next_tid := st.next_tid + 1 }
    (st, call1 :: evs ++ [Event.armTimer tid])
  else
    (st, [call1, Event.send chat_id (clean_response response1)])

/-! ## Debounce timer: `wait_and_check` (src/main.py lines 123-130) -/

/-- One wake-up of timer task `tid` at time `now` (after its
`asyncio.sleep(10)`). A task whose `cancel()` was requested never runs
its check. A live task fires — clears `waiting` and flushes — exactly
when `now - last_wait_time >= 10`; otherwise it sleeps again (a later
`wake` step). -/
def wait_and_check_step (user_id chat_id : Nat) (bot2_response : String)
    (tid now : Nat) (st : SysState) : SysState × List Event :=
  if tid ∈ st.cancelled then
    (st, [])
  else if now - st.session.last_wait_time ≥ 10 then
    let st := { st with session := { st.session with waiting := false } }
    process_bot2_messages user_id chat_id bot2_response st
  else
    (st, [])

/-! ## Cooperative schedules -/

/-- A scheduler step: either an inbound message (with the classification
`bot1` returns for it) handled at time `t`, or timer task `tid` waking
at time `t`. -/
inductive Step where
  | arrival (text response1 : String) (t : Nat)
  | wake (tid : Nat) (t : Nat)
deriving DecidableEq

/-- Run a list of scheduler steps, accumulating the event trace.
`bot2_response` is the text `bot2` returns on each flush. -/
def runSteps (user_id chat_id : Nat) (bot2_response : String) :
    SysState → List Step → SysState × List Event
  | st, [] => (st, [])
  | st, Step.arrival text response1 t :: rest =>
    let p := handle_telegram_message user_id chat_id text response1 bot2_response t st
    let q := runSteps user_id chat_id bot2_response p.1 rest
    (q.1, p.2 ++ q.2)
  | st, Step.wake tid t :: rest =>
    let p := wait_and_check_step user_id chat_id bot2_response tid t st
    let q := runSteps user_id chat_id bot2_response p.1 rest
    (q.1, p.2 ++ q.2)

/-- The questions of the Backend-B (`bot2`) calls in a trace: each entry
is one flush. -/
def bot2Questions (evs : List Event) : List String :=
  evs.filterMap fun e =>
    match e with
    | .call .bot2 q _ _ => some q
    | _ => none

/-- The texts delivered to the user in a trace. -/
def sends (evs : List Event) : List String :=
  evs.filterMap fun e =>
    match e with
    | .send _ t => some t
    | _ => none

/-- The branch of `handle_telegram_message` selected by a classification
response, mirroring the guard structure of src/main.py lines 99-118. -/
inductive Branch where
  | escalate
  | clarify
  | wait
  | direct
deriving DecidableEq

def classify_branch (r1 : String) : Branch :=
  if containsSub r1.data escalate_marker.data then .escalate
  else if pyStrip r1.data = clarify_marker.data then .clarify
  else if r1 = wait_marker then .wait
  else .direct

/-- The schedules of the debounce scenario: `WaitSched armed cancelled
nid lastT texts steps` holds when, starting with timer `armed` armed
(`cancelled` already cancelled), fresh-id counter `nid` and last wait
signal at `lastT`, the step list `steps` consists of the arrivals of
`texts` in order — each classified `"Ожидание"`, each within the
10-second debounce window of the previous one — interleaved with
wake-ups of already-cancelled timer tasks (a timer armed by one arrival
sleeps 10 seconds, so with gaps under 10 seconds it can only wake after
the next arrival has cancelled it), and ends with the one live timer
waking after the window has elapsed. -/
inductive WaitSched :
    Option Nat → List Nat → Nat → Nat → List String → List Step → Prop where
  | fire (a : Nat) (cancelled : List Nat) (nid lastT t : Nat)
      (hlive : a ∉ cancelled) (ht : 10 ≤ t - lastT) :
      WaitSched (some a) cancelled nid lastT [] [Step.wake a t]
  | stale (armed : Option Nat) (cancelled : List Nat) (nid lastT : Nat)
      (texts : List String) (steps : List Step) (tid t : Nat)
      (hc : tid ∈ cancelled)
      (h : WaitSched armed cancelled nid lastT texts steps) :
      WaitSched armed cancelled nid lastT texts (Step.wake tid t :: steps)
  | arrive (armed : Option Nat) (cancelled : List Nat) (nid lastT : Nat)
      (text : String) (texts : List String) (steps : List Step) (t : Nat)
      (hgap : armed.isSome = true → t < lastT + 10)
      (h : WaitSched (some nid) (cancel_list armed cancelled)
        (nid + 1) t texts steps) :
      WaitSched armed cancelled nid lastT (text :: texts)
        (Step.arrival text wait_marker t :: steps)

/-- The spec's description of the sanitizer, assembled from its words:
strip all literal `#` and `*` characters, trim each line, trim the
leading/trailing whitespace of the whole text. Stated separately from
`clean_response` (which follows the source) to compare the two. -/
def sanitize_spec (text : String) : String :=
  let noMarks := text.data.filter fun c => ¬(c = '#' ∨ c = '*')
  let lineTrimmed := joinNl ((splitNl noMarks).map pyStrip)
  ⟨pyStrip lineTrimmed⟩

/-! ## Helper lemmas -/

theorem wait_not_escalate :
    containsSub wait_marker.data escalate_marker.data = false := by decide

theorem wait_not_clarify :
    ¬(pyStrip wait_marker.data = clarify_marker.data) := by decide

theorem bot2Questions_append (a b : List Event) :
    bot2Questions (a ++ b) = bot2Questions a ++ bot2Questions b := by
  simp [bot2Questions]

/-- Evaluation of the handler on the wait branch (`response1 == "Ожидание"`,
src/main.py lines 109-115). -/
theorem handle_wait_eq (u c : Nat) (text r2 : String) (now : Nat) (st : SysState) :
    handle_telegram_message u c text wait_marker r2 now st =
      ({ session :=
          { waiting := true
            last_wait_time := now
            message_queue := st.session.message_queue ++ [text]
            wait_task := some st.next_tid
            session_id := st.session.session_id }
         cancelled := cancel_list st.session.wait_task st.cancelled
         next_tid := st.next_tid + 1 },
       Event.call .bot1 text u st.session.session_id ::
        (cancel_events st.session.wait_task ++ [Event.armTimer st.next_tid])) := by
  obtain ⟨⟨w, lt, q, wt, sid⟩, canc, nid⟩ := st
  cases wt <;>
    simp [handle_telegram_message, cancel_wait_task, cancel_list, cancel_events,
      wait_not_escalate, wait_not_clarify]

/-- Evaluation of the handler on the default branch (src/main.py
lines 116-118). -/
theorem handle_default_eq (u c : Nat) (text r1 r2 : String) (now : Nat) (st : SysState)
    (h1 : containsSub r1.data escalate_marker.data = false)
    (h2 : pyStrip r1.data ≠ clarify_marker.data)
    (h3 : r1 ≠ wait_marker) :
    handle_telegram_message u c text r1 r2 now st =
      (st, [Event.call .bot1 text u st.session.session_id,
            Event.send c (clean_response r1)]) := by
  simp [handle_telegram_message, h1, h2, h3]

/-- Evaluation of the handler on the escalate branch (`"Спецзапрос" in
response1`, src/main.py lines 99-103). -/
theorem handle_escalate_eq (u c : Nat) (text r1 r2 : String) (now : Nat) (st : SysState)
    (h1 : containsSub r1.data escalate_marker.data = true) :
    handle_telegram_message u c text r1 r2 now st =
      ({ session :=
          { waiting := st.session.waiting
            last_wait_time := st.session.last_wait_time
            message_queue := []
            wait_task := st.session.wait_task
            session_id := st.session.session_id }
         cancelled :=
          match st.session.wait_task with
          | some a => a :: st.cancelled
          | none => st.cancelled
         next_tid := st.next_tid },
       Event.call .bot1 text u st.session.session_id ::
        ((match st.session.wait_task with
          | some a => [Event.cancelTimer a]
          | none => []) ++
         (Event.call .bot2
            (String.intercalate " " (st.session.message_queue ++ [text]))
            u st.session.session_id ::
          if r2 = "" then []
          else [Event.send c (clean_response r2)]))) := by
  obtain ⟨⟨w, lt, q, wt, sid⟩, canc, nid⟩ := st
  cases wt <;>
    cases Decidable.em (r2 = "") <;>
      simp_all [handle_telegram_message, cancel_wait_task, process_bot2_messages]

/-- Evaluation of the handler on the clarify branch
(`response1.strip() == "Уточнение"`, src/main.py lines 104-108). -/
theorem handle_clarify_eq (u c : Nat) (text r1 r2 : String) (now : Nat) (st : SysState)
    (h0 : containsSub r1.data escalate_marker.data = false)
    (h1 : pyStrip r1.data = clarify_marker.data) :
    handle_telegram_message u c text r1 r2 now st =
      ({ session :=
          { waiting := st.session.waiting
            last_wait_time := st.session.last_wait_time
            message_queue := []
            wait_task := st.session.wait_task
            session_id := st.session.session_id }
         cancelled :=
          match st.session.wait_task with
          | some a => a :: st.cancelled
          | none => st.cancelled
         next_tid := st.next_tid },
       Event.call .bot1 text u st.session.session_id ::
        ((match st.session.wait_task with
          | some a => [Event.cancelTimer a]
          | none => []) ++
         (Event.call .bot2
            (String.intercalate " "
              (st.session.message_queue ++ [text ++ " " ++ clarify_marker]))
            u st.session.session_id ::
          if r2 = "" then []
          else [Event.send c (clean_response r2)]))) := by
  obtain ⟨⟨w, lt, q, wt, sid⟩, canc, nid⟩ := st
  cases wt <;>
    cases Decidable.em (r2 = "") <;>
      simp_all [handle_telegram_message, cancel_wait_task, process_bot2_messages]

/-- The handler never rewrites `session_id`, and every backend call it
issues carries the session's `session_id`. -/
theorem handle_session_id (u c : Nat) (text r1 r2 : String) (now : Nat) (st : SysState) :
    (handle_telegram_message u c text r1 r2 now st).1.session.session_id =
      st.session.session_id ∧
    (∀ b q uid sid,
      Event.call b q uid sid ∈ (handle_telegram_message u c text r1 r2 now st).2 →
      sid = st.session.session_id) := by
  by_cases hE : containsSub r1.data escalate_marker.data = true
  · rw [handle_escalate_eq u c text r1 r2 now st hE]
    cases h : st.session.wait_task <;>
      cases Decidable.em (r2 = "") <;>
        constructor <;> simp_all <;> intro b q uid sid hm <;> aesop
  · rw [Bool.not_eq_true] at hE
    by_cases hC : pyStrip r1.data = clarify_marker.data
    · rw [handle_clarify_eq u c text r1 r2 now st hE hC]
      cases h : st.session.wait_task <;>
        cases Decidable.em (r2 = "") <;>
          constructor <;> simp_all <;> intro b q uid sid hm <;> aesop
    · by_cases hW : r1 = wait_marker
      · subst hW
        rw [handle_wait_eq u c text r2 now st]
        cases h : st.session.wait_task <;>
          constructor <;> simp_all [cancel_events, cancel_list] <;>
            intro b q uid sid hm <;> aesop
      · rw [handle_default_eq u c text r1 r2 now st hE hC hW]
        constructor <;> simp_all <;> intro b q uid sid hm <;> aesop

/-- The timer body never rewrites `session_id`, and any backend call it
issues carries the session's `session_id`. -/
theorem wait_step_session_id (u c : Nat) (r2 : String) (tid now : Nat) (st : SysState) :
    (wait_and_check_step u c r2 tid now st).1.session.session_id =
      st.session.session_id ∧
    (∀ b q uid sid,
      Event.call b q uid sid ∈ (wait_and_check_step u c r2 tid now st).2 →
      sid = st.session.session_id) := by
  unfold wait_and_check_step process_bot2_messages
  by_cases h1 : tid ∈ st.cancelled
  · simp [h1]
  · by_cases h2 : 10 ≤ now - st.session.last_wait_time
    · by_cases h3 : r2 = "" <;> constructor <;> simp_all <;> intro b q uid sid hm <;> aesop
    · simp [h1, h2]

/-- A whole cooperative run never rewrites `session_id`, and every
backend call in its trace carries the session's `session_id`. -/
theorem runSteps_session_id (u c : Nat) (r2 : String) (steps : List Step) :
    ∀ st : SysState,
      (runSteps u c r2 st steps).1.session.session_id = st.session.session_id ∧
      (∀ b q uid sid,
        Event.call b q uid sid ∈ (runSteps u c r2 st steps).2 →
        sid = st.session.session_id) := by
  induction steps with
  | nil => intro st; simp [runSteps]
  | cons step rest ih =>
    intro st
    cases step with
    | arrival text r1 t =>
      have hh := handle_session_id u c text r1 r2 t st
      have hr := ih (handle_telegram_message u c text r1 r2 t st).1
      constructor
      · show (runSteps u c r2 _ rest).1.session.session_id = _
        rw [hr.1, hh.1]
      · intro b q uid sid hm
        rw [show (runSteps u c r2 st (Step.arrival text r1 t :: rest)).2 =
            (handle_telegram_message u c text r1 r2 t st).2 ++
            (runSteps u c r2 (handle_telegram_message u c text r1 r2 t st).1 rest).2
          from rfl] at hm
        rcases List.mem_append.mp hm with h | h
        · exact hh.2 b q uid sid h
        · rw [← hh.1]; exact hr.2 b q uid sid h
    | wake tid t =>
      have hh := wait_step_session_id u c r2 tid t st
      have hr := ih (wait_and_check_step u c r2 tid t st).1
      constructor
      · show (runSteps u c r2 _ rest).1.session.session_id = _
        rw [hr.1, hh.1]
      · intro b q uid sid hm
        rw [show (runSteps u c r2 st (Step.wake tid t :: rest)).2 =
            (wait_and_check_step u c r2 tid t st).2 ++
            (runSteps u c r2 (wait_and_check_step u c r2 tid t st).1 rest).2
          from rfl] at hm
        rcases List.mem_append.mp hm with h | h
        · exact hh.2 b q uid sid h
        · rw [← hh.1]; exact hr.2 b q uid sid h

theorem runSteps_cons_arrival (u c : Nat) (r2 text r1 : String) (t : Nat)
    (st : SysState) (rest : List Step) :
    runSteps u c r2 st (Step.arrival text r1 t :: rest) =
      ((runSteps u c r2 (handle_telegram_message u c text r1 r2 t st).1 rest).1,
       (handle_telegram_message u c text r1 r2 t st).2 ++
         (runSteps u c r2 (handle_telegram_message u c text r1 r2 t st).1 rest).2) := rfl

theorem runSteps_cons_wake (u c : Nat) (r2 : String) (tid t : Nat)
    (st : SysState) (rest : List Step) :
    runSteps u c r2 st (Step.wake tid t :: rest) =
      ((runSteps u c r2 (wait_and_check_step u c r2 tid t st).1 rest).1,
       (wait_and_check_step u c r2 tid t st).2 ++
         (runSteps u c r2 (wait_and_check_step u c r2 tid t st).1 rest).2) := rfl

/-- Running any schedule of the debounce scenario from a matching state
produces exactly one flush, whose combined question is the queue already
held plus all arriving texts joined by single spaces, and leaves the
queue empty. -/
theorem waitSched_run (u c : Nat) (r2 : String)
    (armed : Option Nat) (cancelled : List Nat) (nid lastT : Nat)
    (texts : List String) (steps : List Step)
    (hs : WaitSched armed cancelled nid lastT texts steps) :
    ∀ st : SysState,
      st.session.wait_task = armed → st.cancelled = cancelled →
      st.next_tid = nid → st.session.last_wait_time = lastT →
      bot2Questions (runSteps u c r2 st steps).2 =
        [String.intercalate " " (st.session.message_queue ++ texts)] ∧
      (runSteps u c r2 st steps).1.session.message_queue = [] := by
  induction hs with
  | fire a cancelled nid lastT t hlive ht =>
    intro st h1 h2 h3 h4
    have hnc : a ∉ st.cancelled := by rw [h2]; exact hlive
    have hge : 10 ≤ t - st.session.last_wait_time := by rw [h4]; exact ht
    by_cases hr : r2 = "" <;>
      simp [runSteps, wait_and_check_step, process_bot2_messages, hnc, hge,
        bot2Questions, hr]
  | stale armed cancelled nid lastT texts steps tid t hc h ih =>
    intro st h1 h2 h3 h4
    have hmem : tid ∈ st.cancelled := by rw [h2]; exact hc
    have hp : wait_and_check_step u c r2 tid t st = (st, []) := by
      simp [wait_and_check_step, hmem]
    have hrest := ih st h1 h2 h3 h4
    rw [runSteps_cons_wake, hp]
    simpa using hrest
  | arrive armed cancelled nid lastT text texts steps t hgap h ih =>
    intro st h1 h2 h3 h4
    subst h1 h2 h3 h4
    have hih := ih
      { session :=
          { waiting := true
            last_wait_time := t
            message_queue := st.session.message_queue ++ [text]
            wait_task := some st.next_tid
            session_id := st.session.session_id }
        cancelled := cancel_list st.session.wait_task st.cancelled
        next_tid := st.next_tid + 1 }
      rfl rfl rfl rfl
    rw [runSteps_cons_arrival, handle_wait_eq u c text r2 t st]
    constructor
    · show bot2Questions (_ ++ _) = _
      rw [bot2Questions_append, hih.1]
      cases st.session.wait_task <;> simp [bot2Questions, cancel_events]
    · exact hih.2

/-- Attempts consumed by the retry loop never exceed `max_retries`. -/
theorem get_response_from_le (oracle : Nat → AttemptResult) :
    ∀ (k a : Nat), a + k = max_retries → (get_response_from oracle a).2 ≤ max_retries := by
  have h5 : max_retries = 5 := rfl
  intro k
  induction k with
  | zero =>
    intro a ha
    unfold get_response_from
    rw [dif_neg (by omega)]
    omega
  | succ k ih =>
    intro a ha
    unfold get_response_from
    rw [dif_pos (by omega)]
    cases h : oracle a with
    | success t => simp; omega
    | failure =>
      simp only [h]
      by_cases hl : a = max_retries - 1
      · rw [if_pos hl]; omega
      · rw [if_neg hl]
        exact ih (a + 1) (by omega)

/-- One failing non-final attempt moves the retry loop to the next
attempt (after the backoff sleep). -/
theorem get_response_from_fail_step (oracle : Nat → AttemptResult) (a : Nat)
    (h1 : a < max_retries - 1) (h : oracle a = .failure) :
    get_response_from oracle a = get_response_from oracle (a + 1) := by
  have h5 : max_retries = 5 := rfl
  conv_lhs => unfold get_response_from
  rw [dif_pos (by omega)]
  simp only [h]
  rw [if_neg (by omega)]

/-- A successful attempt returns the payload's `text` field (or the
missing-text sentinel) after `a + 1` attempts. -/
theorem get_response_from_succ (oracle : Nat → AttemptResult) (a : Nat)
    (t : Option String) (h1 : a < max_retries) (h : oracle a = .success t) :
    get_response_from oracle a =
      (t.getD "No response text in Flowise API response", a + 1) := by
  unfold get_response_from
  rw [dif_pos h1]
  simp [h]

/-- A failure on the final (5th) attempt returns the fixed failure
sentinel; no further attempt is made. -/
theorem get_response_from_last_fail (oracle : Nat → AttemptResult)
    (h : oracle 4 = .failure) :
    get_response_from oracle 4 = ("Error occurred while contacting Flowise API.", 5) := by
  unfold get_response_from
  rw [dif_pos (by decide)]
  simp [h, max_retries]

/-! ## Sanitizer idempotence machinery -/

theorem dropWhile_fixed_of_prefix {α : Type} {p : α → Bool} :
    ∀ {m t : List α}, m.dropWhile p = m → t <+: m → t.dropWhile p = t := by
  intro m t hm ht
  cases t with
  | nil => rfl
  | cons a t' =>
    obtain ⟨r, rfl⟩ := ht
    have hpa : p a = false := by
      by_contra hpa
      rw [Bool.not_eq_false] at hpa
      rw [List.cons_append, List.dropWhile_cons_of_pos hpa] at hm
      have := (List.dropWhile_sublist (l := t' ++ r) p).length_le
      rw [hm] at this
      simp at this
    rw [List.dropWhile_cons_of_neg (by simp [hpa])]

theorem dropWhile_strip_fixed {α : Type} (p : α → Bool) (l : List α) :
    (List.rdropWhile p (l.dropWhile p)).dropWhile p =
      List.rdropWhile p (l.dropWhile p) :=
  dropWhile_fixed_of_prefix (List.dropWhile_idempotent p l)
    (List.rdropWhile_prefix p (l.dropWhile p))

theorem strip_strip_fixed {α : Type} (p : α → Bool) (l : List α) :
    List.rdropWhile p ((List.rdropWhile p (l.dropWhile p)).dropWhile p) =
      List.rdropWhile p (l.dropWhile p) := by
  rw [dropWhile_strip_fixed, List.rdropWhile_idempotent]

theorem dropWhile_eq_self_of_strip_fixed {α : Type} {p : α → Bool} {q : List α}
    (h : List.rdropWhile p (q.dropWhile p) = q) : q.dropWhile p = q := by
  have hsub : List.Sublist (q.dropWhile p) q := List.dropWhile_sublist p
  have hpre := List.rdropWhile_prefix p (q.dropWhile p)
  have h1 : (List.rdropWhile p (q.dropWhile p)).length ≤ (q.dropWhile p).length :=
    hpre.sublist.length_le
  have h2 : (q.dropWhile p).length ≤ q.length := hsub.length_le
  rw [h] at h1
  exact hsub.eq_of_length (by omega)

theorem rdropWhile_eq_self_of_strip_fixed {α : Type} {p : α → Bool} {q : List α}
    (h : List.rdropWhile p (q.dropWhile p) = q) : List.rdropWhile p q = q := by
  have hd : q.dropWhile p = q := dropWhile_eq_self_of_strip_fixed h
  rw [hd] at h
  exact h

theorem head_not_of_dropWhile_fixed {α : Type} {p : α → Bool} {q : List α}
    (h : q.dropWhile p = q) : ∀ a t, q = a :: t → p a = false := by
  intro a t heq
  subst heq
  by_contra hpa
  rw [Bool.not_eq_false] at hpa
  rw [List.dropWhile_cons_of_pos hpa] at h
  have := (List.dropWhile_sublist (l := t) p).length_le
  rw [h] at this
  simp at this

theorem isEmpty_reverse {α : Type} (l : List α) : l.reverse.isEmpty = l.isEmpty := by
  rcases l with _ | ⟨a, t⟩
  · rfl
  · rw [Bool.eq_iff_iff]
    simp [List.isEmpty_iff]

theorem splitNl_ne_nil (l : List Char) : splitNl l ≠ [] := by
  induction l with
  | nil => simp [splitNl]
  | cons c cs ih =>
    by_cases h : c = '\n'
    · simp [splitNl, h]
    · simp only [splitNl, if_neg h]
      cases hs : splitNl cs with
      | nil => simp
      | cons q qs => simp

theorem not_newline_mem_splitNl (l : List Char) :
    ∀ q ∈ splitNl l, '\n' ∉ q := by
  induction l with
  | nil =>
    intro q hq
    simp [splitNl] at hq
    simp [hq]
  | cons c cs ih =>
    intro q hq
    by_cases h : c = '\n'
    · rw [splitNl, if_pos h] at hq
      rcases List.mem_cons.mp hq with hq | hq
      · simp [hq]
      · exact ih q hq
    · rw [splitNl, if_neg h] at hq
      cases hs : splitNl cs with
      | nil => exact absurd hs (splitNl_ne_nil cs)
      | cons r rs =>
        rw [hs] at hq
        rcases List.mem_cons.mp hq with hq | hq
        · subst hq
          intro hmem
          rcases List.mem_cons.mp hmem with hmem | hmem
          · exact h hmem.symm
          · exact ih r (by rw [hs]; exact List.mem_cons_self r rs) hmem
        · exact ih q (by rw [hs]; exact List.mem_cons_of_mem r hq)

theorem mem_of_mem_splitNl (l : List Char) :
    ∀ q ∈ splitNl l, ∀ x ∈ q, x ∈ l := by
  induction l with
  | nil =>
    intro q hq x hx
    simp [splitNl] at hq
    subst hq
    simp at hx
  | cons c cs ih =>
    intro q hq x hx
    by_cases h : c = '\n'
    · rw [splitNl, if_pos h] at hq
      rcases List.mem_cons.mp hq with hq | hq
      · subst hq; simp at hx
      · exact List.mem_cons_of_mem c (ih q hq x hx)
    · rw [splitNl, if_neg h] at hq
      cases hs : splitNl cs with
      | nil => exact absurd hs (splitNl_ne_nil cs)
      | cons r rs =>
        rw [hs] at hq
        rcases List.mem_cons.mp hq with hq | hq
        · subst hq
          rcases List.mem_cons.mp hx with hx | hx
          · rw [hx]; exact List.mem_cons_self c cs
          · exact List.mem_cons_of_mem c
              (ih r (by rw [hs]; exact List.mem_cons_self r rs) x hx)
        · exact List.mem_cons_of_mem c
            (ih q (by rw [hs]; exact List.mem_cons_of_mem r hq) x hx)

theorem splitNl_eq_single {l : List Char} (h : '\n' ∉ l) : splitNl l = [l] := by
  induction l with
  | nil => rfl
  | cons c cs ih =>
    have hc : ¬c = '\n' := fun hc => h (by rw [hc]; exact List.mem_cons_self _ _)
    rw [splitNl, if_neg hc, ih (fun hm => h (List.mem_cons_of_mem c hm))]

theorem splitNl_append {q : List Char} (l : List Char) (h : '\n' ∉ q) :
    splitNl (q ++ '\n' :: l) = q :: splitNl l := by
  induction q with
  | nil => simp [splitNl]
  | cons c q' ih =>
    have hc : ¬c = '\n' := fun hc => h (by rw [hc]; exact List.mem_cons_self _ _)
    rw [List.cons_append, splitNl, if_neg hc,
      ih (fun hm => h (List.mem_cons_of_mem c hm))]

theorem joinNl_cons (q : List Char) {rest : List (List Char)} (h : rest ≠ []) :
    joinNl (q :: rest) = q ++ '\n' :: joinNl rest := by
  cases rest with
  | nil => exact absurd rfl h
  | cons r rs => rfl

theorem splitNl_joinNl : ∀ {ps : List (List Char)}, ps ≠ [] →
    (∀ q ∈ ps, '\n' ∉ q) → splitNl (joinNl ps) = ps := by
  intro ps
  induction ps with
  | nil => intro h; exact absurd rfl h
  | cons q rest ih =>
    intro _ hps
    cases rest with
    | nil =>
      show splitNl q = [q]
      exact splitNl_eq_single (hps q (List.mem_cons_self _ _))
    | cons r rs =>
      rw [joinNl_cons q (by simp),
        splitNl_append _ (hps q (List.mem_cons_self _ _)),
        ih (by simp) (fun p hp => hps p (List.mem_cons_of_mem q hp))]

theorem mem_joinNl : ∀ {ps : List (List Char)} {x : Char}, x ∈ joinNl ps →
    x = '\n' ∨ ∃ q ∈ ps, x ∈ q := by
  intro ps
  induction ps with
  | nil => intro x hx; simp [joinNl] at hx
  | cons q rest ih =>
    intro x hx
    cases rest with
    | nil =>
      right
      exact ⟨q, List.mem_cons_self _ _, hx⟩
    | cons r rs =>
      rw [joinNl_cons q (by simp)] at hx
      rcases List.mem_append.mp hx with h | h
      · exact Or.inr ⟨q, List.mem_cons_self _ _, h⟩
      · rcases List.mem_cons.mp h with h | h
        · exact Or.inl h
        · rcases ih h with h | ⟨w, hw, hxw⟩
          · exact Or.inl h
          · exact Or.inr ⟨w, List.mem_cons_of_mem q hw, hxw⟩

theorem joinNl_concat (m : List Char) : ∀ ms : List (List Char), ms ≠ [] →
    joinNl (ms ++ [m]) = joinNl ms ++ '\n' :: m := by
  intro ms
  induction ms with
  | nil => intro h; exact absurd rfl h
  | cons q rest ih =>
    intro _
    cases rest with
    | nil => rfl
    | cons r rs =>
      rw [List.cons_append, joinNl_cons q (by simp), joinNl_cons q (by simp),
        ih (by simp)]
      simp

theorem reverse_joinNl : ∀ ps : List (List Char),
    (joinNl ps).reverse = joinNl ((ps.map List.reverse).reverse) := by
  intro ps
  induction ps with
  | nil => rfl
  | cons q rest ih =>
    cases rest with
    | nil => rfl
    | cons r rs =>
      rw [joinNl_cons q (by simp)]
      rw [show (List.map List.reverse (q :: r :: rs)).reverse =
        (List.map List.reverse (r :: rs)).reverse ++ [q.reverse] by simp]
      rw [joinNl_concat q.reverse ((List.map List.reverse (r :: rs)).reverse) (by simp)]
      rw [← ih]
      simp

/-- Expression of `pyStrip` via Mathlib's `dropWhile` and `rdropWhile`. -/
theorem pyStrip_eq (l : List Char) :
    pyStrip l = List.rdropWhile pySpace (l.dropWhile pySpace) := rfl

theorem pyStrip_idem (l : List Char) : pyStrip (pyStrip l) = pyStrip l := by
  rw [pyStrip_eq, pyStrip_eq]
  exact strip_strip_fixed pySpace l

theorem mem_pyStrip {x : Char} {l : List Char} (h : x ∈ pyStrip l) : x ∈ l := by
  rw [pyStrip_eq] at h
  have hpre := List.rdropWhile_prefix pySpace (l.dropWhile pySpace)
  exact (List.dropWhile_sublist pySpace).subset (hpre.sublist.subset h)

theorem dropWhile_eq_self_of_pyStrip {q : List Char} (hq : pyStrip q = q) :
    q.dropWhile pySpace = q :=
  dropWhile_eq_self_of_strip_fixed (by rw [← pyStrip_eq]; exact hq)

theorem rdropWhile_eq_self_of_pyStrip {q : List Char} (hq : pyStrip q = q) :
    List.rdropWhile pySpace q = q :=
  rdropWhile_eq_self_of_strip_fixed (by rw [← pyStrip_eq]; exact hq)

/-- Dropping leading whitespace of a joined line list drops the leading
empty lines, provided no line starts with whitespace. -/
theorem dropWhile_pySpace_joinNl :
    ∀ {ps : List (List Char)},
      (∀ q ∈ ps, ∀ a t, q = a :: t → pySpace a = false) →
      (joinNl ps).dropWhile pySpace =
        joinNl (ps.dropWhile fun q => q.isEmpty) := by
  intro ps
  induction ps with
  | nil => intro _; rfl
  | cons q rest ih =>
    intro hps
    have hrest : ∀ q ∈ rest, ∀ a t, q = a :: t → pySpace a = false :=
      fun q hq => hps q (List.mem_cons_of_mem _ hq)
    cases q with
    | nil =>
      cases rest with
      | nil => rfl
      | cons r rs =>
        rw [joinNl_cons [] (by simp), List.nil_append,
          List.dropWhile_cons_of_pos (by decide : pySpace '\n' = true), ih hrest]
        congr 1
    | cons a t =>
      have ha : pySpace a = false :=
        hps (a :: t) (List.mem_cons_self _ _) a t rfl
      cases rest with
      | nil =>
        show (a :: t).dropWhile pySpace =
          joinNl (List.dropWhile (fun q => q.isEmpty) [a :: t])
        rw [List.dropWhile_cons_of_neg (by simp [ha])]
        simp [List.dropWhile_cons, joinNl]
      | cons r rs =>
        rw [joinNl_cons (a :: t) (by simp), List.cons_append,
          List.dropWhile_cons_of_neg (by simp [ha])]
        rw [show ((a :: t) :: r :: rs).dropWhile (fun q => q.isEmpty) =
          (a :: t) :: r :: rs from by simp [List.dropWhile_cons]]
        rw [joinNl_cons (a :: t) (by simp), List.cons_append]

/-- Dropping trailing whitespace of a joined line list drops the
trailing empty lines, provided no line ends with whitespace. -/
theorem rdropWhile_pySpace_joinNl {ps : List (List Char)}
    (hps : ∀ q ∈ ps, ∀ a t, q.reverse = a :: t → pySpace a = false) :
    List.rdropWhile pySpace (joinNl ps) =
      joinNl (List.rdropWhile (fun q => q.isEmpty) ps) := by
  have hpieces : ∀ q ∈ (ps.map List.reverse).reverse, ∀ a t,
      q = a :: t → pySpace a = false := by
    intro q hq a t hqa
    rw [List.mem_reverse] at hq
    rcases List.mem_map.mp hq with ⟨r, hr, rfl⟩
    exact hps r hr a t hqa
  rw [List.rdropWhile, reverse_joinNl ps, dropWhile_pySpace_joinNl hpieces,
    reverse_joinNl]
  congr 1
  rw [show (ps.map List.reverse).reverse = ps.reverse.map List.reverse from
    (List.map_reverse List.reverse ps).symm]
  rw [List.dropWhile_map]
  rw [show ((fun q : List Char => q.isEmpty) ∘ List.reverse) =
    (fun q : List Char => q.isEmpty) from funext fun q => isEmpty_reverse q]
  rw [List.map_map]
  rw [show (List.reverse ∘ List.reverse : List Char → List Char) = id from
    funext fun q => List.reverse_reverse q]
  rw [List.map_id, List.rdropWhile]

/-- Trimming a joined list of already-trimmed lines removes exactly the
leading and trailing empty lines. -/
theorem pyStrip_joinNl {ps : List (List Char)}
    (hps : ∀ q ∈ ps, pyStrip q = q) :
    pyStrip (joinNl ps) =
      joinNl (List.rdropWhile (fun q => q.isEmpty)
        (ps.dropWhile fun q => q.isEmpty)) := by
  rw [pyStrip_eq]
  rw [dropWhile_pySpace_joinNl (fun q hq => head_not_of_dropWhile_fixed
    (dropWhile_eq_self_of_pyStrip (hps q hq)))]
  apply rdropWhile_pySpace_joinNl
  intro q hq a t hqa
  have hq' : q ∈ ps := (List.dropWhile_sublist _).subset hq
  have hr : List.rdropWhile pySpace q = q := rdropWhile_eq_self_of_pyStrip (hps q hq')
  have hrev : q.reverse.dropWhile pySpace = q.reverse := by
    have h2 := congrArg List.reverse hr
    rwa [List.rdropWhile, List.reverse_reverse] at h2
  exact head_not_of_dropWhile_fixed hrev a t hqa

theorem clean_list_eq (l : List Char) :
    clean_list l =
      pyStrip (joinNl ((splitNl (removeChar (removeChar l '#') '*')).map pyStrip)) :=
  rfl

theorem removeChar_mem {x c : Char} {l : List Char} (h : x ∈ removeChar l c) :
    x ∈ l ∧ x ≠ c := by
  unfold removeChar at h
  have h2 := List.mem_filter.mp h
  exact ⟨h2.1, by simpa using h2.2⟩

theorem removeChar_eq_self {l : List Char} {c : Char} (h : ∀ x ∈ l, x ≠ c) :
    removeChar l c = l :=
  List.filter_eq_self.mpr (fun a ha => by simpa using h a ha)

theorem map_pyStrip_fixed :
    ∀ {ms : List (List Char)}, (∀ q ∈ ms, pyStrip q = q) → ms.map pyStrip = ms := by
  intro ms
  induction ms with
  | nil => intro _; rfl
  | cons q rest ih =>
    intro h
    rw [List.map_cons, h q (List.mem_cons_self _ _),
      ih (fun r hr => h r (List.mem_cons_of_mem q hr))]

/-- Every line of the sanitizer's output is trimmed and newline-free. -/
theorem clean_pieces_good (m : List Char) :
    ∀ q ∈ (splitNl m).map pyStrip, pyStrip q = q ∧ '\n' ∉ q := by
  intro q hq
  rcases List.mem_map.mp hq with ⟨r, hr, rfl⟩
  exact ⟨pyStrip_idem r,
    fun hmem => not_newline_mem_splitNl m r hr (mem_pyStrip hmem)⟩

/-- The sanitizer `clean_list` fixes any join of a normalized line list: lines
trimmed, newline- and marker-free, with no leading or trailing empty
line. -/
theorem clean_list_fixed_of_normal {qs : List (List Char)}
    (hgood : ∀ q ∈ qs, pyStrip q = q ∧ '\n' ∉ q)
    (hchars : ∀ q ∈ qs, ∀ x ∈ q, x ≠ '#' ∧ x ≠ '*')
    (hdfix : qs.dropWhile (fun q => q.isEmpty) = qs)
    (hrfix : List.rdropWhile (fun q => q.isEmpty) qs = qs) :
    clean_list (joinNl qs) = joinNl qs := by
  by_cases hqn : qs = []
  · subst hqn; decide
  · have hnl : ∀ q ∈ qs, '\n' ∉ q := fun q hq => (hgood q hq).2
    have hmem : ∀ x ∈ joinNl qs, x ≠ '#' ∧ x ≠ '*' := by
      intro x hx
      rcases mem_joinNl hx with h | ⟨q, hq, hxq⟩
      · subst h; exact ⟨by decide, by decide⟩
      · exact hchars q hq x hxq
    have hfil : removeChar (removeChar (joinNl qs) '#') '*' = joinNl qs := by
      have h1 : removeChar (joinNl qs) '#' = joinNl qs :=
        removeChar_eq_self (fun x hx => (hmem x hx).1)
      rw [h1]
      exact removeChar_eq_self (fun x hx => (hmem x hx).2)
    rw [clean_list_eq, hfil, splitNl_joinNl hqn hnl,
      map_pyStrip_fixed (fun q hq => (hgood q hq).1),
      pyStrip_joinNl (fun q hq => (hgood q hq).1),
      hdfix, hrfix]

/-- The sanitizer is idempotent at the character-list level. -/
theorem clean_list_idem (l : List Char) :
    clean_list (clean_list l) = clean_list l := by
  have hgood := clean_pieces_good (removeChar (removeChar l '#') '*')
  have hs : clean_list l =
      joinNl (List.rdropWhile (fun q => q.isEmpty)
        (((splitNl (removeChar (removeChar l '#') '*')).map pyStrip).dropWhile
          fun q => q.isEmpty)) := by
    rw [clean_list_eq, pyStrip_joinNl (fun q hq => (hgood q hq).1)]
  have hqs_mem : ∀ q ∈ List.rdropWhile (fun q : List Char => q.isEmpty)
      (((splitNl (removeChar (removeChar l '#') '*')).map pyStrip).dropWhile
        fun q => q.isEmpty),
      q ∈ (splitNl (removeChar (removeChar l '#') '*')).map pyStrip := by
    intro q hq
    have hpre := List.rdropWhile_prefix (fun q : List Char => q.isEmpty)
      (((splitNl (removeChar (removeChar l '#') '*')).map pyStrip).dropWhile
        fun q => q.isEmpty)
    exact (List.dropWhile_sublist _).subset (hpre.sublist.subset hq)
  rw [hs]
  apply clean_list_fixed_of_normal
  · intro q hq
    exact hgood q (hqs_mem q hq)
  · intro q hq x hx
    rcases List.mem_map.mp (hqs_mem q hq) with ⟨r, hr, rfl⟩
    have hxm : x ∈ removeChar (removeChar l '#') '*' :=
      mem_of_mem_splitNl _ r hr x (mem_pyStrip hx)
    have h1 := removeChar_mem hxm
    have h2 := removeChar_mem h1.1
    exact ⟨h2.2, h1.2⟩
  · exact dropWhile_strip_fixed (fun q : List Char => q.isEmpty) _
  · exact List.rdropWhile_idempotent _ _

/-! ## Claims -/

/-- C3: the Backend Client makes at most 5 attempts; 4 failures followed
by a success yield exactly 5 attempts and the success payload's `text`
field; 5 failures yield the fixed failure sentinel after exactly 5
attempts and no 6th attempt; the call is total — it always returns
text. -/
theorem claim_C3_retry_policy (oracle : Nat → AttemptResult) (t : String) :
    (get_response oracle).2 ≤ 5 ∧
    ((∀ i, i < 4 → oracle i = .failure) → oracle 4 = .success (some t) →
      get_response oracle = (t, 5)) ∧
    ((∀ i, i < 5 → oracle i = .failure) →
      get_response oracle = ("Error occurred while contacting Flowise API.", 5)) := by
  refine ⟨get_response_from_le oracle 5 0 rfl, ?_, ?_⟩
  · intro hf hs
    calc get_response oracle = get_response_from oracle 0 := rfl
      _ = get_response_from oracle 1 :=
        get_response_from_fail_step oracle 0 (by decide) (hf 0 (by omega))
      _ = get_response_from oracle 2 :=
        get_response_from_fail_step oracle 1 (by decide) (hf 1 (by omega))
      _ = get_response_from oracle 3 :=
        get_response_from_fail_step oracle 2 (by decide) (hf 2 (by omega))
      _ = get_response_from oracle 4 :=
        get_response_from_fail_step oracle 3 (by decide) (hf 3 (by omega))
      _ = (t, 5) := by
        rw [get_response_from_succ oracle 4 (some t) (by decide) hs]
        rfl
  · intro hf
    calc get_response oracle = get_response_from oracle 0 := rfl
      _ = get_response_from oracle 1 :=
        get_response_from_fail_step oracle 0 (by decide) (hf 0 (by omega))
      _ = get_response_from oracle 2 :=
        get_response_from_fail_step oracle 1 (by decide) (hf 1 (by omega))
      _ = get_response_from oracle 3 :=
        get_response_from_fail_step oracle 2 (by decide) (hf 2 (by omega))
      _ = get_response_from oracle 4 :=
        get_response_from_fail_step oracle 3 (by decide) (hf 3 (by omega))
      _ = ("Error occurred while contacting Flowise API.", 5) :=
        get_response_from_last_fail oracle (hf 4 (by omega))

/-- C3 witness: a concrete oracle failing on attempts 0-3 and succeeding
on attempt 4 gives exactly 5 attempts and the payload text. -/
theorem claim_C3_witness :
    get_response (fun i => if i < 4 then .failure else .success (some "ok")) = ("ok", 5) :=
  (claim_C3_retry_policy (fun i => if i < 4 then .failure else .success (some "ok")) "ok").2.1
    (by intro i hi; simp [hi])
    (by simp)

/-- C4: the flush drains the session's whole queue to empty and the
question of the single Backend-B call it issues is the queued texts in
arrival order joined by single spaces. -/
theorem claim_C4_flush_drains (u c : Nat) (r2 : String) (st : SysState) :
    (process_bot2_messages u c r2 st).1.session.message_queue = [] ∧
    bot2Questions (process_bot2_messages u c r2 st).2 =
      [String.intercalate " " st.session.message_queue] := by
  by_cases h : r2 = "" <;> simp [process_bot2_messages, bot2Questions, h]

/-- C6: during a flush, an empty (falsy) Backend-B response is a silent
no-op — nothing is delivered and nothing is raised — while a non-empty
response is delivered sanitized. -/
theorem claim_C6_empty_silent (u c : Nat) (r2 : String) (st : SysState) :
    sends (process_bot2_messages u c r2 st).2 =
      if r2 = "" then [] else [clean_response r2] := by
  by_cases h : r2 = "" <;> simp [process_bot2_messages, sends, h]

/-- C8: the sanitizer removes all `#` and `*`, trims each line, trims the
whole text — it agrees with the spec's description on every input — and
on `"**Hi #there**\n  ok  "` yields `"Hi there\nok"`. -/
theorem claim_C8_sanitizer (t : String) :
    clean_response t = sanitize_spec t ∧
    clean_response "**Hi #there**\n  ok  " = "Hi there\nok" := by
  refine ⟨?_, by decide⟩
  have hfil : ∀ l : List Char,
      removeChar (removeChar l '#') '*' = l.filter fun c => ¬(c = '#' ∨ c = '*') := by
    intro l
    induction l with
    | nil => rfl
    | cons c cs ih =>
      by_cases h1 : c = '#' <;> by_cases h2 : c = '*' <;>
        simp_all [removeChar]
  simp [clean_response, sanitize_spec, clean_list, hfil]

/-- C9: the sanitizer is idempotent — for every input text,
`sanitize(sanitize(text)) = sanitize(text)`. -/
theorem claim_C9_sanitize_idempotent (t : String) :
    clean_response (clean_response t) = clean_response t :=
  congrArg String.mk (clean_list_idem t.data)

/-- C1 counterexample: the classification `"Спецзапрос!"` equals none of
the three markers, yet the router takes the escalate path on it — the
message is appended and immediately flushed to Backend-B. -/
theorem claim_C1_counterexample :
    ("Спецзапрос!" ≠ escalate_marker ∧ "Спецзапрос!" ≠ clarify_marker ∧
      "Спецзапрос!" ≠ wait_marker) ∧
    classify_branch "Спецзапрос!" = Branch.escalate ∧
    bot2Questions (handle_telegram_message 1 2 "m" "Спецзапрос!" "r" 0
      ⟨init_session 1, [], 0⟩).2 = ["m"] := by
  decide

/-- C1 (amended): the router takes the escalate path exactly when the
classification CONTAINS the escalate marker `"Спецзапрос"` as a
substring (not: equals it); it then cancels any armed debounce timer,
appends the raw message text to the pending queue, and immediately
flushes — even when the session is in WAITING; a classification not
containing the marker is never routed to the escalate path. -/
theorem claim_C1_escalate_contains (u c : Nat) (text r1 r2 : String) (now : Nat)
    (st : SysState) :
    (classify_branch r1 = Branch.escalate ↔
      containsSub r1.data escalate_marker.data = true) ∧
    (containsSub r1.data escalate_marker.data = true →
      (handle_telegram_message u c text r1 r2 now st).1.session.message_queue = [] ∧
      bot2Questions (handle_telegram_message u c text r1 r2 now st).2 =
        [String.intercalate " " (st.session.message_queue ++ [text])] ∧
      (∀ a, st.session.wait_task = some a →
        Event.cancelTimer a ∈ (handle_telegram_message u c text r1 r2 now st).2)) := by
  constructor
  · constructor
    · intro h
      by_contra hn
      rw [Bool.not_eq_true] at hn
      by_cases hC : pyStrip r1.data = clarify_marker.data
      · simp [classify_branch, hn, hC] at h
      · by_cases hW : r1 = wait_marker
        · subst hW
          exact absurd h (by decide)
        · simp [classify_branch, hn, hC, hW] at h
    · intro h; simp [classify_branch, h]
  · intro h
    rw [handle_escalate_eq u c text r1 r2 now st h]
    refine ⟨rfl, ?_, ?_⟩
    · cases st.session.wait_task <;> by_cases hr : r2 = "" <;>
        simp [bot2Questions, hr]
    · intro a ha
      rw [ha]
      by_cases hr : r2 = "" <;> simp [hr]

/-- C1 witness: on a WAITING session with an armed timer and a queued
text, a classification containing the marker cancels the timer and
flushes queue plus current message. -/
theorem claim_C1_witness :
    (handle_telegram_message 1 2 "m" "ok Спецзапрос" "r" 0
      ⟨{ init_session 1 with waiting := true, message_queue := ["q"], wait_task := some 0 }, [], 1⟩).1.session.message_queue = [] ∧
    bot2Questions (handle_telegram_message 1 2 "m" "ok Спецзапрос" "r" 0
      ⟨{ init_session 1 with waiting := true, message_queue := ["q"], wait_task := some 0 }, [], 1⟩).2 = ["q m"] ∧
    Event.cancelTimer 0 ∈ (handle_telegram_message 1 2 "m" "ok Спецзапрос" "r" 0
      ⟨{ init_session 1 with waiting := true, message_queue := ["q"], wait_task := some 0 }, [], 1⟩).2 := by
  have h := (claim_C1_escalate_contains 1 2 "m" "ok Спецзапрос" "r" 0
    ⟨{ init_session 1 with waiting := true, message_queue := ["q"], wait_task := some 0 }, [], 1⟩).2 (by decide)
  exact ⟨h.1, by simpa using h.2.1, h.2.2 0 rfl⟩

/-- C5 counterexample: `"a Спецзапрос"` is outside the three-marker set,
yet handling it mutates the queue (it is flushed) and the delivered
reply is not `sanitize` of the classification. -/
theorem claim_C5_counterexample :
    ("a Спецзапрос" ≠ escalate_marker ∧ "a Спецзапрос" ≠ clarify_marker ∧
      "a Спецзапрос" ≠ wait_marker) ∧
    (handle_telegram_message 1 2 "m" "a Спецзапрос" "r" 0
        ⟨{ init_session 1 with message_queue := ["q"] }, [], 0⟩).1.session.message_queue ≠
      (⟨{ init_session 1 with message_queue := ["q"] }, [], 0⟩ : SysState).session.message_queue ∧
    sends (handle_telegram_message 1 2 "m" "a Спецзапрос" "r" 0
        ⟨{ init_session 1 with message_queue := ["q"] }, [], 0⟩).2 ≠
      [clean_response "a Спецзапрос"] := by
  decide

/-- C5 (amended): for every classification that does not contain the
escalate marker, does not trim to the clarify marker, and is not the
wait marker, the reply delivered is `sanitize(classification)` and the
session state — queue, waiting flag, lastSignalTime, timer handle — is
entirely unchanged. -/
theorem claim_C5_default_frame (u c : Nat) (text r1 r2 : String) (now : Nat)
    (st : SysState)
    (h1 : containsSub r1.data escalate_marker.data = false)
    (h2 : pyStrip r1.data ≠ clarify_marker.data)
    (h3 : r1 ≠ wait_marker) :
    handle_telegram_message u c text r1 r2 now st =
      (st, [Event.call .bot1 text u st.session.session_id,
            Event.send c (clean_response r1)]) :=
  handle_default_eq u c text r1 r2 now st h1 h2 h3

/-- C5 witness: a plain answer classification leaves the session intact
and is delivered sanitized. -/
theorem claim_C5_witness :
    handle_telegram_message 1 2 "m" "**Привет**" "r" 0
        ⟨{ init_session 1 with message_queue := ["q"], wait_task := some 3 }, [], 4⟩ =
      (⟨{ init_session 1 with message_queue := ["q"], wait_task := some 3 }, [], 4⟩,
       [Event.call .bot1 "m" 1
          (⟨{ init_session 1 with message_queue := ["q"], wait_task := some 3 }, [], 4⟩ :
            SysState).session.session_id,
        Event.send 2 (clean_response "**Привет**")]) :=
  claim_C5_default_frame 1 2 "m" "**Привет**" "r" 0
    ⟨{ init_session 1 with message_queue := ["q"], wait_task := some 3 }, [], 4⟩
    (by decide) (by decide) (by decide)

/-- C10: a classification equal to the wait marker only after trimming
(but not exactly), not containing the escalate marker and not trimming
to the clarify marker, takes the default branch: it is sanitized and
delivered as a final answer with no enqueue and no timer arming. -/
theorem claim_C10_untrimmed_wait (u c : Nat) (text r1 r2 : String) (now : Nat)
    (st : SysState)
    (htrim : pyStrip r1.data = wait_marker.data)
    (hne : r1 ≠ wait_marker)
    (hesc : containsSub r1.data escalate_marker.data = false)
    (hcl : pyStrip r1.data ≠ clarify_marker.data) :
    handle_telegram_message u c text r1 r2 now st =
      (st, [Event.call .bot1 text u st.session.session_id,
            Event.send c (clean_response r1)]) :=
  handle_default_eq u c text r1 r2 now st hesc hcl hne

/-- C10 witness: `" Ожидание"` trims to the wait marker but is handled
as a final answer, leaving the session untouched. -/
theorem claim_C10_witness :
    handle_telegram_message 1 2 "m" " Ожидание" "r" 0 ⟨init_session 1, [], 0⟩ =
      (⟨init_session 1, [], 0⟩,
       [Event.call .bot1 "m" 1 (init_session 1).session_id,
        Event.send 2 (clean_response " Ожидание")]) :=
  claim_C10_untrimmed_wait 1 2 "m" " Ожидание" "r" 0 ⟨init_session 1, [], 0⟩
    (by decide) (by decide) (by decide) (by decide)

/-- C2: starting from an idle session, for any cooperative schedule of
the debounce scenario — N wait-classified arrivals, each within the
10-second window of the previous one, interleaved with wake-ups of the
timers those arrivals cancelled, ending with the surviving timer firing
— exactly one flush occurs, it sends the N texts in arrival order
joined by single spaces as one Backend-B call, and the queue is empty
immediately after; moreover each wait-classified arrival cancels the
previously armed timer and arms exactly one new one (`wait_task` holds
at most one timer). -/
theorem claim_C2_debounce (u c : Nat) (r2 : String)
    (texts : List String) (steps : List Step) (nid lastT : Nat)
    (hs : WaitSched none [] nid lastT texts steps)
    (st : SysState)
    (h1 : st.session.wait_task = none) (h2 : st.cancelled = [])
    (h3 : st.next_tid = nid) (h4 : st.session.last_wait_time = lastT)
    (h5 : st.session.message_queue = []) :
    bot2Questions (runSteps u c r2 st steps).2 = [String.intercalate " " texts] ∧
    (runSteps u c r2 st steps).1.session.message_queue = [] ∧
    (∀ (text' : String) (t' : Nat) (st' : SysState) (a : Nat),
      st'.session.wait_task = some a →
      (handle_telegram_message u c text' wait_marker r2 t' st').1.session.wait_task =
        some st'.next_tid ∧
      Event.cancelTimer a ∈ (handle_telegram_message u c text' wait_marker r2 t' st').2 ∧
      Event.armTimer st'.next_tid ∈
        (handle_telegram_message u c text' wait_marker r2 t' st').2) := by
  have h := waitSched_run u c r2 none [] nid lastT texts steps hs st h1 h2 h3 h4
  refine ⟨by simpa [h5] using h.1, h.2, ?_⟩
  intro text' t' st' a ha
  rw [handle_wait_eq u c text' r2 t' st']
  refine ⟨rfl, ?_, ?_⟩ <;> rw [ha] <;> simp [cancel_events]

/-- C2 witness: two wait-classified messages 5 seconds apart, the first
timer waking (already cancelled) after the second arrival, then the
second timer firing: one flush of `"a b"`, empty queue. -/
theorem claim_C2_witness :
    bot2Questions (runSteps 1 2 "r" ⟨init_session 1, [], 0⟩
      [Step.arrival "a" wait_marker 0, Step.arrival "b" wait_marker 5,
       Step.wake 0 12, Step.wake 1 15]).2 = ["a b"] ∧
    (runSteps 1 2 "r" ⟨init_session 1, [], 0⟩
      [Step.arrival "a" wait_marker 0, Step.arrival "b" wait_marker 5,
       Step.wake 0 12, Step.wake 1 15]).1.session.message_queue = [] ∧
    Event.cancelTimer 0 ∈ (handle_telegram_message 1 2 "b" wait_marker "r" 5
      ⟨{ init_session 1 with wait_task := some 0 }, [], 1⟩).2 := by
  have hd : WaitSched none [] 0 0 ["a", "b"]
      [Step.arrival "a" wait_marker 0, Step.arrival "b" wait_marker 5,
       Step.wake 0 12, Step.wake 1 15] :=
    WaitSched.arrive none [] 0 0 "a" ["b"]
      [Step.arrival "b" wait_marker 5, Step.wake 0 12, Step.wake 1 15] 0
      (fun _ => by omega)
      (WaitSched.arrive (some 0) [] 1 0 "b" []
        [Step.wake 0 12, Step.wake 1 15] 5
        (fun _ => by omega)
        (WaitSched.stale (some 1) [0] 2 5 [] [Step.wake 1 15] 0 12
          (by decide)
          (WaitSched.fire 1 [0] 2 5 15 (by decide) (by decide))))
  have h := claim_C2_debounce 1 2 "r" ["a", "b"]
    [Step.arrival "a" wait_marker 0, Step.arrival "b" wait_marker 5,
     Step.wake 0 12, Step.wake 1 15] 0 0 hd
    ⟨init_session 1, [], 0⟩ rfl rfl rfl rfl rfl
  exact ⟨by simpa using h.1, h.2.1,
    (h.2.2 "b" 5 ⟨{ init_session 1 with wait_task := some 0 }, [], 1⟩ 0 rfl).2.1⟩

/-- C7: the session's `sessionId` is `str(user_id)`, derived once at
session creation (lookup of an existing session changes nothing), no
operation of any cooperative run rewrites it, and every backend call in
any run's trace carries it. -/
theorem claim_C7_session_id (u c : Nat) (r2 : String) (st : SysState)
    (steps : List Step) :
    (get_user_bots (fun _ => none) u).2.session_id = toString u ∧
    (∀ (ud : Nat → Option UserSession) (s : UserSession),
      ud u = some s → get_user_bots ud u = (ud, s)) ∧
    (runSteps u c r2 st steps).1.session.session_id = st.session.session_id ∧
    (∀ b q uid sid,
      Event.call b q uid sid ∈ (runSteps u c r2 st steps).2 →
      sid = st.session.session_id) := by
  refine ⟨rfl, ?_, (runSteps_session_id u c r2 steps st).1,
    (runSteps_session_id u c r2 steps st).2⟩
  intro ud s h
  simp [get_user_bots, h]

/-- C7 witness: over a concrete two-step run for user 3 the session id
stays `"3"` and a bot1 call in the trace carries `"3"`. -/
theorem claim_C7_witness :
    (runSteps 3 4 "ans" ⟨init_session 3, [], 0⟩
        [Step.arrival "hi" "x" 0, Step.wake 0 20]).1.session.session_id =
      (⟨init_session 3, [], 0⟩ : SysState).session.session_id ∧
    "3" = (⟨init_session 3, [], 0⟩ : SysState).session.session_id := by
  have h := claim_C7_session_id 3 4 "ans" ⟨init_session 3, [], 0⟩
    [Step.arrival "hi" "x" 0, Step.wake 0 20]
  exact ⟨h.2.2.1, h.2.2.2 .bot1 "hi" 3 "3" (by decide)⟩

end FlowiseBot
